import Mathlib

/-!
Verification of the AgroTech local persistence core (animal repository).

This file shallowly embeds the persistence layer of the repository:
  - src/domain/animal.ts        (the Animal record shape)
  - src/data/animal.repo.ts     (loadWeb, saveWeb, listAnimals, upsertAnimal)
  - src/core/db/sqlite.ts       (initDb: full-schema creation plus additive
                                 column migration, the variant at the lines the
                                 claims reference)
  - src/features/animals/list/AnimalsScreen.tsx (the form save() guard)

Modelling conventions:
  - Side effects are made explicit: the current timestamp (new Date()
    .toISOString()) and the generated uuid are parameters; the web
    localStorage content and the native table are explicit state values
    threaded through the functions.
  - The platform branch (Platform.OS) is fixed per process, so the two
    backends are embedded as separate functions (…Web / …Native); the real
    upsertAnimal/listAnimals are the isWeb-selected one of the pair.
  - Fallible storage calls are represented by Except / Bool outcome
    parameters: a native run failure is an Except.error, a localStorage
    setItem failure is a Bool flag caught by saveWeb exactly as the
    try/catch in the source does.
  - JS Array.prototype.sort with a consistent comparator is a stable sort;
    it is modelled with List.mergeSort applied to the predicate "the
    comparator returns ≤ 0", i.e. the comparator of listAnimals keeps a
    before b iff not (a.updatedAt < b.updatedAt). The SQL clause
    ORDER BY updatedAt DESC is modelled the same way: sorted on updatedAt
    only, ties left in table order (the SQL names no secondary key).
-/

namespace AgroTech

/-- Biological sex enumeration from src/domain/animal.ts: 'M' | 'F'.
The spec names the cases MALE/FEMALE; they correspond to M/F here. -/
inductive Sex where
  | M
  | F
deriving DecidableEq, Repr

/-- The persisted Animal record, exactly the interface of
src/domain/animal.ts: id, tag, sex, breed?, birthDate?, updatedAt, version.
These are the only fields the repository ever persists. -/
structure Animal where
  id : String
  tag : String
  sex : Sex
  breed : Option String
  birthDate : Option String
  updatedAt : String
  version : Int
deriving DecidableEq, Repr

/-- The caller-supplied upsert input: Partial<Animal> & \x7b tag; sex \x7d.
Besides the domain fields, the form screens pass further properties
(type, origin, weightKg, sireTag, damTag, notes, ...); at runtime a JS
object carries them into upsertAnimal, so they are present here in order
to state what the repository does with them (it discards them). -/
structure AnimalInput where
  id : Option String := none
  tag : String
  sex : Sex
  breed : Option String := none
  birthDate : Option String := none
  version : Option Int := none
  type : Option String := none
  origin : Option String := none
  lot : Option String := none
  pasture : Option String := none
  supplier : Option String := none
  buyer : Option String := none
  sireTag : Option String := none
  damTag : Option String := none
  causeMortis : Option String := none
  notes : Option String := none
  purchaseDate : Option String := none
  weaningDate : Option String := none
  saleDate : Option String := none
  pastureStartDate : Option String := none
  confinementStartDate : Option String := none
  weightKg : Option Rat := none
  priceValue : Option Rat := none
deriving DecidableEq, Repr

/-- The entity normalization inside upsertAnimal (animal.repo.ts lines
92-100): id := input.id ?? uuidv4(); tag, sex, breed, birthDate copied;
updatedAt := now; version := (input.version ?? 0) + 1.
`now` stands for new Date().toISOString() (an ISO 8601 UTC timestamp) and
`freshId` for the uuidv4() value. -/
def upsertEntity (now freshId : String) (input : AnimalInput) : Animal :=
  { id := input.id.getD freshId
    tag := input.tag
    sex := input.sex
    breed := input.breed
    birthDate := input.birthDate
    updatedAt := now
    version := input.version.getD 0 + 1 }

/-- Web upsert list update (animal.repo.ts lines 104-106): find the first
index with the same id; replace it in place, else unshift (prepend). -/
def upsertIntoList (e : Animal) (list : List Animal) : List Animal :=
  match list.findIdx? (fun a => a.id == e.id) with
  | some i => list.set i e
  | none => e :: list

/-- Web-path upsertAnimal (animal.repo.ts lines 103-108), returning the
entity and the list written back to localStorage. -/
def upsertAnimalWeb (now freshId : String) (input : AnimalInput)
    (stored : List Animal) : Animal × List Animal :=
  (upsertEntity now freshId input,
   upsertIntoList (upsertEntity now freshId input) stored)

/-- saveWeb (animal.repo.ts lines 58-62): best-effort setItem inside
try/catch \x7b\x7d. `writeFails` is true when setItem throws (quota/IO);
then the durable store keeps its previous content. -/
def saveWeb (writeFails : Bool) (store list : List Animal) : List Animal :=
  if writeFails then store else list

/-- Web-path upsertAnimal including the durable-write outcome: the entity
is returned unconditionally; the stored list changes only when the
best-effort saveWeb succeeded. -/
def upsertAnimalWebDurable (now freshId : String) (input : AnimalInput)
    (stored : List Animal) (writeFails : Bool) : Animal × List Animal :=
  (upsertEntity now freshId input,
   saveWeb writeFails stored (upsertIntoList (upsertEntity now freshId input) stored))

/-- SQL parameter values bound by the native path. -/
inductive SqlValue where
  | text (s : String)
  | real (x : Rat)
  | int (n : Int)
  | null
deriving DecidableEq, Repr

/-- The stored text of a Sex value ('M' | 'F'). -/
def sexText : Sex → String
  | .M => "M"
  | .F => "F"

/-- Binding of an optional text column: x ?? null. -/
def optText : Option String → SqlValue
  | some s => .text s
  | none => .null

/-- The parameter array of the native INSERT OR REPLACE (animal.repo.ts
line 115): [entity.id, entity.tag, entity.sex, entity.breed ?? null,
entity.birthDate ?? null, entity.updatedAt, entity.version] — the seven
bound columns (id, tag, sex, breed, birthDate, updatedAt, version). -/
def upsertRunParams (e : Animal) : List SqlValue :=
  [.text e.id, .text e.tag, .text (sexText e.sex), optText e.breed,
   optText e.birthDate, .text e.updatedAt, .int e.version]

/-- Effect of INSERT OR REPLACE INTO animals keyed by the primary key id:
the conflicting row (if any) is deleted and the new row inserted; the new
row takes a fresh rowid, hence scans visit it last. -/
def insertOrReplace (e : Animal) (table : List Animal) : List Animal :=
  table.filter (fun a => a.id != e.id) ++ [e]

/-- Native-path upsertAnimal (animal.repo.ts lines 111-117): awaits run;
a run failure (constraint violation, I/O error) is not caught, so it
propagates; on success the entity is returned and the table updated. -/
def upsertAnimalNative (now freshId : String) (input : AnimalInput)
    (runResult : Except String Unit) (table : List Animal) :
    Except String (Animal × List Animal) :=
  match runResult with
  | .error err => .error err
  | .ok _ => .ok (upsertEntity now freshId input,
                  insertOrReplace (upsertEntity now freshId input) table)

/-- The listAnimals web comparator (animal.repo.ts line 72):
(a, b) => (a.updatedAt < b.updatedAt ? 1 : -1); `keep a before b` holds
iff the comparator is ≤ 0, i.e. iff not (a.updatedAt < b.updatedAt). -/
def jsSortKeep (a b : Animal) : Bool :=
  if a.updatedAt < b.updatedAt then false else true

/-- Web-path listAnimals (animal.repo.ts lines 70-73): load then sort by
updatedAt descending (stable sort, ES2019 Array.prototype.sort). -/
def listAnimalsWeb (stored : List Animal) : List Animal :=
  stored.mergeSort jsSortKeep

/-- Native-path listAnimals (animal.repo.ts line 74):
SELECT * FROM animals ORDER BY updatedAt DESC. The clause names updatedAt
only; ties are left in backend scan order, modelled as table order. -/
def listAnimalsNative (table : List Animal) : List Animal :=
  table.mergeSort jsSortKeep

/-- The ordering §4.3 of the spec prescribes for the structured backend
(updatedAt descending, ties broken by ascending tag); stated from the
spec text, for comparison with listAnimalsNative. -/
def specOrderKeep (a b : Animal) : Bool :=
  if a.updatedAt = b.updatedAt then (if a.tag ≤ b.tag then true else false)
  else (if b.updatedAt < a.updatedAt then true else false)

/-- listAnimals as §4.3 of the spec words it for the structured backend. -/
def listAnimalsSpecOrder (table : List Animal) : List Animal :=
  table.mergeSort specOrderKeep

/-- loadWeb (animal.repo.ts lines 45-52): getItem may be absent (none) or
yield a raw string; `raw ? JSON.parse(raw) : []` (an empty string is
falsy); a JSON.parse throw is caught and yields []. `parse` stands for
JSON.parse at the List Animal shape, Except.error for a throw. -/
def loadWeb (parse : String → Except String (List Animal))
    (raw : Option String) : List Animal :=
  match raw with
  | none => []
  | some s =>
    if s = "" then []
    else match parse s with
      | .ok l => l
      | .error _ => []

/-- Web-path listAnimals down to the raw stored blob. -/
def listAnimalsWebRaw (parse : String → Except String (List Animal))
    (raw : Option String) : List Animal :=
  listAnimalsWeb (loadWeb parse raw)

/-- Modelled from the spec: getAnimalById is imported from
'@/data/animal.repo' by the AnimalForm screen (AnimalsScreen.tsx line 254)
but the provided repository source does not contain its definition. Per
spec §4.3 it is a single-row lookup by primary key (structured backend) /
a linear scan by id (blob backend), returning the record or an explicit
not-found (none), never an exception. Both behaviors coincide on the
embedded state: first record whose id matches. -/
def getAnimalById (stored : List Animal) (id : String) : Option Animal :=
  stored.find? (fun a => a.id == id)

/-- JS String.prototype.trim: removes leading and trailing whitespace.
(An executable model; the standard library trim is not kernel-reducible.) -/
def jsTrim (s : String) : String :=
  ⟨((s.data.dropWhile Char.isWhitespace).reverse.dropWhile
      Char.isWhitespace).reverse⟩

/-- The AnimalForm save() guard (AnimalsScreen.tsx lines 184-194):
if (!tag.trim()) alert and return (no write); else upsertAnimal with
tag: tag.trim() and the other form fields (the empty trimmed string is
falsy). Returns none when the guard rejects, some (entity, newStore)
otherwise. -/
def formSave (now freshId tagField : String) (sex : Sex)
    (breed birthDate : Option String) (id : Option String)
    (stored : List Animal) : Option (Animal × List Animal) :=
  if jsTrim tagField = "" then none
  else some (upsertAnimalWeb now freshId
    { id := id, tag := jsTrim tagField, sex := sex,
      breed := breed, birthDate := birthDate } stored)

/-- Erasure of every caller-supplied field outside the persisted shape
(the fields claim C10 lists as discarded). -/
def eraseExtraFields (input : AnimalInput) : AnimalInput :=
  { input with
    type := none, origin := none, lot := none, pasture := none,
    supplier := none, buyer := none, sireTag := none, damTag := none,
    causeMortis := none, notes := none, purchaseDate := none,
    weaningDate := none, saleDate := none, pastureStartDate := none,
    confinementStartDate := none, weightKg := none, priceValue := none }

/-! Schema manager: src/core/db/sqlite.ts, the migrating initDb at
lines 173-226. -/

/-- A column of the animals table as declared by the DDL. -/
structure ColDef where
  name : String
  sqlType : String
  notNull : Bool
  primaryKey : Bool
deriving DecidableEq, Repr

/-- The animals table state: its column set (PRAGMA table_info order) and
its rows, each row an association from column name to stored value. -/
structure DbTable where
  cols : List ColDef
  rows : List (List (String × SqlValue))
deriving DecidableEq, Repr

/-- The full CREATE TABLE schema (sqlite.ts lines 180-207): 24 columns,
id TEXT PRIMARY KEY NOT NULL; tag, type, sex, updatedAt, version NOT NULL;
all others nullable. -/
def fullSchemaCols : List ColDef :=
  [⟨"id", "TEXT", true, true⟩,
   ⟨"tag", "TEXT", true, false⟩,
   ⟨"type", "TEXT", true, false⟩,
   ⟨"sex", "TEXT", true, false⟩,
   ⟨"breed", "TEXT", false, false⟩,
   ⟨"origin", "TEXT", false, false⟩,
   ⟨"lot", "TEXT", false, false⟩,
   ⟨"pasture", "TEXT", false, false⟩,
   ⟨"purchaseDate", "TEXT", false, false⟩,
   ⟨"birthDate", "TEXT", false, false⟩,
   ⟨"weightKg", "REAL", false, false⟩,
   ⟨"priceValue", "REAL", false, false⟩,
   ⟨"supplier", "TEXT", false, false⟩,
   ⟨"weaningDate", "TEXT", false, false⟩,
   ⟨"saleDate", "TEXT", false, false⟩,
   ⟨"buyer", "TEXT", false, false⟩,
   ⟨"sireTag", "TEXT", false, false⟩,
   ⟨"damTag", "TEXT", false, false⟩,
   ⟨"causeMortis", "TEXT", false, false⟩,
   ⟨"notes", "TEXT", false, false⟩,
   ⟨"pastureStartDate", "TEXT", false, false⟩,
   ⟨"confinementStartDate", "TEXT", false, false⟩,
   ⟨"updatedAt", "TEXT", true, false⟩,
   ⟨"version", "INTEGER", true, false⟩]

/-- The additive migration list (sqlite.ts lines 213-219): name and SQL
type of each column added when absent. -/
def addIfMissing : List (String × String) :=
  [("type", "TEXT"), ("origin", "TEXT"), ("lot", "TEXT"),
   ("pasture", "TEXT"), ("purchaseDate", "TEXT"), ("weightKg", "REAL"),
   ("priceValue", "REAL"), ("supplier", "TEXT"), ("weaningDate", "TEXT"),
   ("saleDate", "TEXT"), ("buyer", "TEXT"), ("sireTag", "TEXT"),
   ("damTag", "TEXT"), ("causeMortis", "TEXT"), ("notes", "TEXT"),
   ("pastureStartDate", "TEXT"), ("confinementStartDate", "TEXT")]

/-- The `has` check (sqlite.ts line 211): cols.some(x => x.name === c). -/
def hasCol (cols : List ColDef) (n : String) : Bool :=
  cols.any (fun c => c.name == n)

/-- ALTER TABLE animals ADD COLUMN name sqlType: appends a nullable,
non-key column; every existing row gets a null value for it. -/
def alterAddColumn (t : DbTable) (n ty : String) : DbTable :=
  { cols := t.cols ++ [⟨n, ty, false, false⟩],
    rows := t.rows.map (fun r => r ++ [(n, SqlValue.null)]) }

/-- One step of the migration loop (sqlite.ts lines 221-225):
if (!has(name)) ALTER TABLE ... ADD COLUMN name sqlType. -/
def migrateStep (t : DbTable) (c : String × String) : DbTable :=
  if hasCol t.cols c.1 then t else alterAddColumn t c.1 c.2

/-- initDb (sqlite.ts lines 173-226) on the explicit store state:
CREATE TABLE IF NOT EXISTS with the full schema (fires only on a fresh
store, creating an empty table), then the additive migration loop over
addIfMissing. The WAL pragma is a durability-mode side effect with no
bearing on the store contents and is not part of the state. -/
def initDb (store : Option DbTable) : DbTable :=
  let t := match store with
    | none => ⟨fullSchemaCols, []⟩
    | some t => t
  addIfMissing.foldl migrateStep t

/-- The columns of addIfMissing absent from an existing store, in loop
order: exactly the columns the migration adds. -/
def missingCols (t : DbTable) : List (String × String) :=
  addIfMissing.filter (fun c => !(hasCol t.cols c.1))

/-! Helper lemmas. -/

theorem find?_set_of_findIdx? {α : Type} (p : α → Bool) (e : α) (hp : p e = true) :
    ∀ (l : List α) (i : Nat), l.findIdx? p = some i → (l.set i e).find? p = some e := by
  intro l
  induction l with
  | nil => intro i h; simp at h
  | cons x xs ih =>
    intro i h
    rw [List.findIdx?_cons] at h
    by_cases hx : p x = true
    · rw [if_pos hx] at h
      cases h
      simp [List.find?_cons, hp]
    · rw [if_neg hx, List.findIdx?_succ] at h
      rcases Option.map_eq_some'.mp h with ⟨j, hj, rfl⟩
      have : (x :: xs).set (j + 1) e = x :: xs.set j e := rfl
      rw [this, List.find?_cons]
      simp only [hx]
      exact ih j hj

theorem find?_upsertIntoList (e : Animal) (l : List Animal) :
    (upsertIntoList e l).find? (fun a => a.id == e.id) = some e := by
  unfold upsertIntoList
  cases h : l.findIdx? (fun a => a.id == e.id) with
  | none => simp [List.find?_cons]
  | some i => exact find?_set_of_findIdx? _ e (by simp) l i h

theorem find?_append_of_none {α : Type} (p : α → Bool) (l₁ l₂ : List α)
    (h : ∀ a ∈ l₁, p a = false) :
    (l₁ ++ l₂).find? p = l₂.find? p := by
  induction l₁ with
  | nil => simp
  | cons x xs ih =>
    have hx : p x = false := h x (List.mem_cons_self x xs)
    simp only [List.cons_append, List.find?_cons, hx]
    exact ih (fun a ha => h a (List.mem_cons_of_mem x ha))

theorem find?_insertOrReplace (e : Animal) (table : List Animal) :
    (insertOrReplace e table).find? (fun a => a.id == e.id) = some e := by
  unfold insertOrReplace
  rw [find?_append_of_none]
  · simp [List.find?_cons]
  · intro a ha
    have := List.of_mem_filter ha
    simpa [bne] using this

theorem initDb_none_eq : initDb none =
    List.foldl migrateStep ⟨fullSchemaCols, []⟩ addIfMissing := rfl

theorem initDb_some_eq (t : DbTable) : initDb (some t) =
    List.foldl migrateStep t addIfMissing := rfl

theorem hasCol_append (cols cols2 : List ColDef) (n : String) :
    hasCol (cols ++ cols2) n = (hasCol cols n || hasCol cols2 n) :=
  List.any_append

theorem hasCol_migrateStep_mono (t : DbTable) (c : String × String)
    (n : String) (h : hasCol t.cols n = true) :
    hasCol (migrateStep t c).cols n = true := by
  unfold migrateStep
  split
  · exact h
  · simp [alterAddColumn, hasCol_append, h]

theorem hasCol_foldl_mono (l : List (String × String)) (t : DbTable)
    (n : String) (h : hasCol t.cols n = true) :
    hasCol (List.foldl migrateStep t l).cols n = true := by
  induction l generalizing t with
  | nil => exact h
  | cons x xs ih => exact ih _ (hasCol_migrateStep_mono t x n h)

theorem hasCol_foldl_of_mem (l : List (String × String)) :
    ∀ (t : DbTable) (c : String × String), c ∈ l →
      hasCol (List.foldl migrateStep t l).cols c.1 = true := by
  induction l with
  | nil => intro t c hc; cases hc
  | cons x xs ih =>
    intro t c hc
    rw [List.foldl_cons]
    rcases List.mem_cons.mp hc with rfl | hmem
    · apply hasCol_foldl_mono
      by_cases hx : hasCol t.cols c.1 = true
      · exact hasCol_migrateStep_mono t c c.1 hx
      · have hstep : migrateStep t c = alterAddColumn t c.1 c.2 := by
          simp [migrateStep, hx]
        rw [hstep]
        simp [alterAddColumn, hasCol_append, hasCol]
    · exact ih (migrateStep t x) c hmem

theorem foldl_migrate_eq_self (l : List (String × String)) (t : DbTable)
    (h : ∀ c ∈ l, hasCol t.cols c.1 = true) :
    List.foldl migrateStep t l = t := by
  induction l with
  | nil => rfl
  | cons x xs ih =>
    have hx : migrateStep t x = t := by
      simp [migrateStep, h x (List.mem_cons_self x xs)]
    rw [List.foldl_cons, hx]
    exact ih (fun c hc => h c (List.mem_cons_of_mem x hc))

theorem foldl_migrate_char (l : List (String × String)) (t : DbTable)
    (hnd : (l.map Prod.fst).Nodup) :
    List.foldl migrateStep t l =
      ⟨t.cols ++ (l.filter (fun c => !(hasCol t.cols c.1))).map
          (fun c => ⟨c.1, c.2, false, false⟩),
       t.rows.map (fun r =>
          r ++ (l.filter (fun c => !(hasCol t.cols c.1))).map
            (fun c => (c.1, SqlValue.null)))⟩ := by
  induction l generalizing t with
  | nil =>
    cases t
    simp
  | cons c cs ih =>
    have hnotmem : c.1 ∉ cs.map Prod.fst := (List.nodup_cons.mp hnd).1
    have hndcs : (cs.map Prod.fst).Nodup := (List.nodup_cons.mp hnd).2
    rw [List.foldl_cons]
    by_cases hc : hasCol t.cols c.1 = true
    · have hstep : migrateStep t c = t := by simp [migrateStep, hc]
      have hf : (c :: cs).filter (fun d => !(hasCol t.cols d.1))
          = cs.filter (fun d => !(hasCol t.cols d.1)) := by
        simp [List.filter_cons, hc]
      rw [hstep, ih t hndcs, hf]
    · have hstep : migrateStep t c = alterAddColumn t c.1 c.2 := by
        simp [migrateStep, hc]
      rw [hstep, ih _ hndcs]
      have hfc : cs.filter (fun d => !(hasCol (alterAddColumn t c.1 c.2).cols d.1))
          = cs.filter (fun d => !(hasCol t.cols d.1)) := by
        apply List.filter_congr
        intro d hd
        have hne : (c.1 == d.1) = false :=
          beq_eq_false_iff_ne.mpr
            (fun he => hnotmem (he ▸ List.mem_map_of_mem Prod.fst hd))
        simp [alterAddColumn, hasCol_append, hasCol, hne]
      have hf : (c :: cs).filter (fun d => !(hasCol t.cols d.1))
          = c :: cs.filter (fun d => !(hasCol t.cols d.1)) := by
        simp [List.filter_cons, hc]
      rw [hfc, hf]
      simp [alterAddColumn, List.map_map, List.append_assoc, Function.comp]

/-! Claim theorems. -/

/-- C1: every upsertAnimal call persists and returns a record whose
updatedAt is the timestamp taken at the call (new Date().toISOString(),
UTC) and whose version is (caller-supplied version, or 0 when none) + 1;
an upsert supplying no version yields version = 1; the computed entity
never depends on the stored state, i.e. the repository never re-reads the
stored version. Both backends are covered; the returned entity is the one
persisted. -/
theorem upsert_updatedAt_version_contract (now freshId : String)
    (input : AnimalInput) (stored table : List Animal) :
    (upsertAnimalWeb now freshId input stored).1.updatedAt = now
    ∧ (upsertAnimalWeb now freshId input stored).1.version
        = input.version.getD 0 + 1
    ∧ (upsertAnimalWeb now freshId { input with version := none } stored).1.version = 1
    ∧ (upsertAnimalWeb now freshId input stored).1
        ∈ (upsertAnimalWeb now freshId input stored).2
    ∧ upsertAnimalNative now freshId input (.ok ()) table
        = .ok (upsertEntity now freshId input,
               insertOrReplace (upsertEntity now freshId input) table)
    ∧ (upsertEntity now freshId input).updatedAt = now
    ∧ upsertEntity now freshId input
        ∈ insertOrReplace (upsertEntity now freshId input) table
    ∧ (∀ stored2 : List Animal,
        (upsertAnimalWeb now freshId input stored2).1
          = (upsertAnimalWeb now freshId input stored).1) := by
  refine ⟨rfl, rfl, rfl, ?_, rfl, rfl, ?_, fun stored2 => rfl⟩
  · exact List.mem_of_find?_eq_some (find?_upsertIntoList _ stored)
  · simp [insertOrReplace]

/-- C2 counterexample: two successive upserts to the same id, the second
supplying no version (which the claim says is irrelevant), both return
version 1, so the second version is not the previous version plus one. -/
theorem upsert_version_counterexample :
    ((upsertAnimalWeb "2025-01-01T00:00:00.000Z" "id-1"
        { tag := "A-001", sex := .F } []).1.version = 1)
    ∧ ((upsertAnimalWeb "2025-01-02T00:00:00.000Z" "id-2"
        { id := some "id-1", tag := "A-001", sex := .F }
        (upsertAnimalWeb "2025-01-01T00:00:00.000Z" "id-1"
          { tag := "A-001", sex := .F } []).2).1.version = 1)
    ∧ ¬((upsertAnimalWeb "2025-01-02T00:00:00.000Z" "id-2"
        { id := some "id-1", tag := "A-001", sex := .F }
        (upsertAnimalWeb "2025-01-01T00:00:00.000Z" "id-1"
          { tag := "A-001", sex := .F } []).2).1.version
      = (upsertAnimalWeb "2025-01-01T00:00:00.000Z" "id-1"
          { tag := "A-001", sex := .F } []).1.version + 1) := by
  decide

/-- C2 amended: each call returns version (caller-supplied version, or 0
when none) + 1, independent of the stored record; a subsequent call
returns the previous call's version + 1 exactly when the caller supplies
the version returned by the previous call; the very first upsert without
a version yields version = 1. -/
theorem upsert_version_succ_when_supplied (now1 u1 now2 u2 : String)
    (in1 in2 : AnimalInput) (stored : List Animal) :
    (upsertAnimalWeb now1 u1 { in1 with version := none } stored).1.version = 1
    ∧ (∀ st2 : List Animal,
        (upsertAnimalWeb now2 u2
          { in2 with
            version := some ((upsertAnimalWeb now1 u1 in1 stored).1.version) }
          st2).1.version
        = (upsertAnimalWeb now1 u1 in1 stored).1.version + 1) := by
  exact ⟨rfl, fun st2 => rfl⟩

/-- C4 counterexample: create with tag A-001, sex F (and breed Angus,
type CALF supplied); version 1 results. A second upsert with the same id,
version 1 and weightKg 120 returns version 2, but the stored record is
bitwise identical to the one obtained when no weightKg is supplied at all
(weightKg is silently discarded, the Animal shape has no such field), and
the breed of the first write is cleared rather than preserved. -/
theorem upsert_scenario_counterexample :
    ((upsertAnimalWeb "2025-01-01T00:00:00.000Z" "id-1"
        { tag := "A-001", sex := .F, breed := some "Angus",
          type := some "CALF" } []).1.breed = some "Angus")
    ∧ ((upsertAnimalWeb "2025-01-02T00:00:00.000Z" "id-2"
        { id := some "id-1", tag := "A-001", sex := .F,
          version := some 1, weightKg := some 120 }
        (upsertAnimalWeb "2025-01-01T00:00:00.000Z" "id-1"
          { tag := "A-001", sex := .F, breed := some "Angus",
            type := some "CALF" } []).2).1.version = 2)
    ∧ ¬((upsertAnimalWeb "2025-01-02T00:00:00.000Z" "id-2"
        { id := some "id-1", tag := "A-001", sex := .F,
          version := some 1, weightKg := some 120 }
        (upsertAnimalWeb "2025-01-01T00:00:00.000Z" "id-1"
          { tag := "A-001", sex := .F, breed := some "Angus",
            type := some "CALF" } []).2).1.breed = some "Angus")
    ∧ (upsertAnimalWeb "2025-01-02T00:00:00.000Z" "id-2"
        { id := some "id-1", tag := "A-001", sex := .F,
          version := some 1, weightKg := some 120 }
        (upsertAnimalWeb "2025-01-01T00:00:00.000Z" "id-1"
          { tag := "A-001", sex := .F, breed := some "Angus",
            type := some "CALF" } []).2
      = upsertAnimalWeb "2025-01-02T00:00:00.000Z" "id-2"
        { id := some "id-1", tag := "A-001", sex := .F,
          version := some 1, weightKg := none }
        (upsertAnimalWeb "2025-01-01T00:00:00.000Z" "id-1"
          { tag := "A-001", sex := .F, breed := some "Angus",
            type := some "CALF" } []).2) := by
  decide

/-- C4 amended: in the concrete scenario the second upsert (same id,
version 1, weightKg 120) yields version = 2, but weightKg is silently
discarded (the persisted state is identical to the one produced without
supplying weightKg; the persisted shape has only id, tag, sex, breed,
birthDate, updatedAt, version) and fields not resupplied are cleared
rather than preserved: the breed of the first write becomes none. -/
theorem upsert_scenario_amended (now1 now2 u1 u2 : String) :
    ((upsertAnimalWeb now1 u1
        { tag := "A-001", sex := .F, breed := some "Angus",
          type := some "CALF" } []).1.version = 1)
    ∧ ((upsertAnimalWeb now2 u2
        { id := some u1, tag := "A-001", sex := .F,
          version := some 1, weightKg := some 120 }
        (upsertAnimalWeb now1 u1
          { tag := "A-001", sex := .F, breed := some "Angus",
            type := some "CALF" } []).2).1
      = { id := u1, tag := "A-001", sex := .F, breed := none,
          birthDate := none, updatedAt := now2, version := 2 })
    ∧ (upsertAnimalWeb now2 u2
        { id := some u1, tag := "A-001", sex := .F,
          version := some 1, weightKg := some 120 }
        (upsertAnimalWeb now1 u1
          { tag := "A-001", sex := .F, breed := some "Angus",
            type := some "CALF" } []).2
      = upsertAnimalWeb now2 u2
        { id := some u1, tag := "A-001", sex := .F,
          version := some 1, weightKg := none }
        (upsertAnimalWeb now1 u1
          { tag := "A-001", sex := .F, breed := some "Angus",
            type := some "CALF" } []).2) := by
  refine ⟨rfl, ?_, rfl⟩
  simp [upsertAnimalWeb, upsertEntity, upsertIntoList]

/-- C6: the error behavior of upsertAnimal is asymmetric between the
backends: a structured-backend write failure (the awaited run rejecting)
propagates to the caller uncaught, while a blob-backend storage write
failure is swallowed by saveWeb's try/catch — the entity is still
returned even though the durable store kept its old content. -/
theorem upsert_error_asymmetry (now freshId : String) (input : AnimalInput)
    (stored table : List Animal) (err : String) :
    upsertAnimalNative now freshId input (.error err) table = .error err
    ∧ (upsertAnimalWebDurable now freshId input stored true).1
        = upsertEntity now freshId input
    ∧ (upsertAnimalWebDurable now freshId input stored true).2 = stored
    ∧ (upsertAnimalWebDurable now freshId input stored false).2
        = upsertIntoList (upsertEntity now freshId input) stored := by
  exact ⟨rfl, rfl, rfl, rfl⟩

/-- C10: the record upsertAnimal normalizes, persists and returns is the
Animal shape with exactly id, tag, sex, breed, birthDate, updatedAt and
version; erasing every other caller-supplied field (type, origin, lot,
pasture, weightKg, priceValue, supplier, weaningDate, saleDate, buyer,
sireTag, damTag, causeMortis, notes, purchaseDate, pastureStartDate,
confinementStartDate) changes neither the returned entity nor the state
written to either backend, and the native write binds exactly the seven
columns id, tag, sex, breed, birthDate, updatedAt, version. -/
theorem upsert_discards_extra_fields (now freshId : String)
    (input : AnimalInput) (stored table : List Animal) :
    upsertEntity now freshId (eraseExtraFields input) = upsertEntity now freshId input
    ∧ upsertAnimalWeb now freshId (eraseExtraFields input) stored
        = upsertAnimalWeb now freshId input stored
    ∧ upsertAnimalNative now freshId (eraseExtraFields input) (.ok ()) table
        = upsertAnimalNative now freshId input (.ok ()) table
    ∧ upsertRunParams (upsertEntity now freshId input)
        = [.text (input.id.getD freshId), .text input.tag,
           .text (sexText input.sex), optText input.breed,
           optText input.birthDate, .text now,
           .int (input.version.getD 0 + 1)]
    ∧ upsertEntity now freshId input
        = { id := input.id.getD freshId, tag := input.tag, sex := input.sex,
            breed := input.breed, birthDate := input.birthDate,
            updatedAt := now, version := input.version.getD 0 + 1 } := by
  exact ⟨rfl, rfl, rfl, rfl, rfl⟩

/-- C7: on the blob backend a deserialization failure — an absent stored
blob (getItem yields nothing) or a corrupt one (JSON.parse throws) — makes
loadWeb, and hence listAnimals, behave as if the collection were empty:
an empty list is returned and no error is raised. -/
theorem corrupt_or_absent_blob_reads_empty
    (parse : String → Except String (List Animal)) (s msg : String)
    (h : parse s = .error msg) :
    loadWeb parse none = []
    ∧ listAnimalsWebRaw parse none = []
    ∧ loadWeb parse (some s) = []
    ∧ listAnimalsWebRaw parse (some s) = [] := by
  have habs : loadWeb parse none = [] := rfl
  have hcor : loadWeb parse (some s) = [] := by
    unfold loadWeb
    by_cases hs : s = ""
    · simp [hs]
    · simp [hs, h]
  refine ⟨habs, ?_, hcor, ?_⟩
  · simp [listAnimalsWebRaw, listAnimalsWeb, habs]
  · simp [listAnimalsWebRaw, listAnimalsWeb, hcor]

/-- Witness for C7 at a concrete corrupt blob: a parse function that
throws on the stored raw string. -/
theorem corrupt_or_absent_blob_reads_empty_witness :
    loadWeb (fun _ => .error "SyntaxError") none = []
    ∧ listAnimalsWebRaw (fun _ => .error "SyntaxError") none = []
    ∧ loadWeb (fun _ => .error "SyntaxError") (some "not json") = []
    ∧ listAnimalsWebRaw (fun _ => .error "SyntaxError") (some "not json") = [] :=
  corrupt_or_absent_blob_reads_empty
    (fun _ => .error "SyntaxError") "not json" "SyntaxError" rfl

/-- C8 counterexample: an upsert whose required tag is the empty string is
not rejected by the repository: the call succeeds, returns an entity with
tag empty, and the stored state changes from the empty list to a
one-record list, so a write was attempted and performed. -/
theorem empty_tag_upsert_accepted :
    ((upsertAnimalWeb "2025-01-01T00:00:00.000Z" "id-1"
        { tag := "", sex := .F } []).1.tag = "")
    ∧ ((upsertAnimalWeb "2025-01-01T00:00:00.000Z" "id-1"
        { tag := "", sex := .F } []).2
      = [{ id := "id-1", tag := "", sex := .F, breed := none,
           birthDate := none, updatedAt := "2025-01-01T00:00:00.000Z",
           version := 1 }]) := by
  decide

/-- C8 amended: the repository itself performs no input validation — an
upsert with an empty tag is accepted and persisted unchanged-shape (the
persisted model has no type field at all) — while the rejection of empty
tags happens only in the caller layer: the form save() refuses to call
upsertAnimal when the trimmed tag is empty. -/
theorem repo_accepts_empty_tag_caller_guards (now freshId : String)
    (input : AnimalInput) (stored : List Animal) (tagField : String)
    (sex : Sex) (breed birthDate : Option String) (oid : Option String)
    (htag : jsTrim tagField = "") :
    (upsertAnimalWeb now freshId { input with tag := "" } stored).1.tag = ""
    ∧ (upsertAnimalWeb now freshId { input with tag := "" } stored).2
        = upsertIntoList (upsertEntity now freshId { input with tag := "" }) stored
    ∧ formSave now freshId tagField sex breed birthDate oid stored = none := by
  refine ⟨rfl, rfl, ?_⟩
  simp [formSave, htag]

/-- Witness for C8 amended at a whitespace-only tag field. -/
theorem repo_accepts_empty_tag_caller_guards_witness :
    (upsertAnimalWeb "2025-01-01T00:00:00.000Z" "id-1"
        { ({ tag := "x", sex := .F } : AnimalInput) with tag := "" } []).1.tag = ""
    ∧ (upsertAnimalWeb "2025-01-01T00:00:00.000Z" "id-1"
        { ({ tag := "x", sex := .F } : AnimalInput) with tag := "" } []).2
        = upsertIntoList
            (upsertEntity "2025-01-01T00:00:00.000Z" "id-1"
              { ({ tag := "x", sex := .F } : AnimalInput) with tag := "" }) []
    ∧ formSave "2025-01-01T00:00:00.000Z" "id-1" "  " .F none none none [] = none :=
  repo_accepts_empty_tag_caller_guards "2025-01-01T00:00:00.000Z" "id-1"
    { tag := "x", sex := .F } [] "  " .F none none none (by decide)

/-- C3: after an upsert, getAnimalById on the returned id yields exactly
the record upsertAnimal returned, on both the blob-backend stored list and
the structured-backend table; and getAnimalById yields the explicit
not-found result (none, no exception) when no stored record matches. -/
theorem upsert_get_roundtrip (now freshId : String) (input : AnimalInput)
    (stored table stored2 : List Animal) (id : String)
    (h : ∀ a ∈ stored2, (a.id == id) = false) :
    getAnimalById (upsertAnimalWeb now freshId input stored).2
        (upsertAnimalWeb now freshId input stored).1.id
      = some (upsertAnimalWeb now freshId input stored).1
    ∧ getAnimalById (insertOrReplace (upsertEntity now freshId input) table)
        (upsertEntity now freshId input).id
      = some (upsertEntity now freshId input)
    ∧ getAnimalById stored2 id = none := by
  refine ⟨?_, ?_, ?_⟩
  · exact find?_upsertIntoList _ stored
  · exact find?_insertOrReplace _ table
  · exact List.find?_eq_none.mpr (fun a ha => by simp [h a ha])

/-- The keep-before predicate of listAnimals holds exactly when the right
record's updatedAt is at most the left one's. -/
theorem jsSortKeep_iff (a b : Animal) :
    jsSortKeep a b = true ↔ b.updatedAt ≤ a.updatedAt := by
  by_cases h : a.updatedAt < b.updatedAt
  · simp [jsSortKeep, h, not_le.mpr h]
  · simp [jsSortKeep, h, not_lt.mp h]

theorem jsSortKeep_trans (a b c : Animal) :
    jsSortKeep a b = true → jsSortKeep b c = true → jsSortKeep a c = true := by
  rw [jsSortKeep_iff, jsSortKeep_iff, jsSortKeep_iff]
  exact fun h1 h2 => le_trans h2 h1

theorem jsSortKeep_total (a b : Animal) :
    (jsSortKeep a b || jsSortKeep b a) = true := by
  rcases le_total a.updatedAt b.updatedAt with h | h
  · simp [(jsSortKeep_iff b a).mpr h]
  · simp [(jsSortKeep_iff a b).mpr h]

/-- Sorting with the listAnimals comparator yields a permutation of the
input that is strictly descending in updatedAt whenever the updatedAt
values are pairwise distinct. -/
theorem mergeSort_jsSortKeep_strict_desc (l : List Animal)
    (h : (l.map (fun a => a.updatedAt)).Nodup) :
    (l.mergeSort jsSortKeep).Pairwise
      (fun a b => b.updatedAt < a.updatedAt)
    ∧ (l.mergeSort jsSortKeep).Perm l := by
  have hperm : (l.mergeSort jsSortKeep).Perm l := List.mergeSort_perm l _
  have hsorted := List.sorted_mergeSort jsSortKeep_trans jsSortKeep_total l
  have hnd : ((l.mergeSort jsSortKeep).map (fun a => a.updatedAt)).Nodup :=
    ((hperm.map (fun a => a.updatedAt)).nodup_iff).mpr h
  have hne : (l.mergeSort jsSortKeep).Pairwise
      (fun a b => a.updatedAt ≠ b.updatedAt) :=
    List.pairwise_map.mp hnd
  refine ⟨(hsorted.and hne).imp ?_, hperm⟩
  rintro a b ⟨h1, h2⟩
  exact lt_of_le_of_ne ((jsSortKeep_iff a b).mp h1) (Ne.symm h2)

/-- C5 amended: listAnimals returns the stored records ordered by
updatedAt descending on both backends, and strictly descending when the
updatedAt values are pairwise distinct; the structured backend's query
orders by updatedAt only — ties are left in backend order, the
ascending-tag tie-break of the claim is not present. -/
theorem listAnimals_sorted_desc (stored table : List Animal)
    (h1 : (stored.map (fun a => a.updatedAt)).Nodup)
    (h2 : (table.map (fun a => a.updatedAt)).Nodup) :
    (listAnimalsWeb stored).Pairwise (fun a b => b.updatedAt < a.updatedAt)
    ∧ (listAnimalsWeb stored).Perm stored
    ∧ (listAnimalsNative table).Pairwise (fun a b => b.updatedAt < a.updatedAt)
    ∧ (listAnimalsNative table).Perm table := by
  obtain ⟨p1, q1⟩ := mergeSort_jsSortKeep_strict_desc stored h1
  obtain ⟨p2, q2⟩ := mergeSort_jsSortKeep_strict_desc table h2
  exact ⟨p1, q1, p2, q2⟩

/-- Witness for C5 amended on two records with distinct timestamps. -/
theorem listAnimals_sorted_desc_witness :
    (listAnimalsWeb
        [⟨"1", "A", .F, none, none, "2025-01-01T00:00:00.000Z", 1⟩,
         ⟨"2", "B", .M, none, none, "2025-01-02T00:00:00.000Z", 1⟩]).Pairwise
      (fun a b => b.updatedAt < a.updatedAt)
    ∧ (listAnimalsWeb
        [⟨"1", "A", .F, none, none, "2025-01-01T00:00:00.000Z", 1⟩,
         ⟨"2", "B", .M, none, none, "2025-01-02T00:00:00.000Z", 1⟩]).Perm
        [⟨"1", "A", .F, none, none, "2025-01-01T00:00:00.000Z", 1⟩,
         ⟨"2", "B", .M, none, none, "2025-01-02T00:00:00.000Z", 1⟩]
    ∧ (listAnimalsNative
        [⟨"1", "A", .F, none, none, "2025-01-01T00:00:00.000Z", 1⟩,
         ⟨"2", "B", .M, none, none, "2025-01-02T00:00:00.000Z", 1⟩]).Pairwise
      (fun a b => b.updatedAt < a.updatedAt)
    ∧ (listAnimalsNative
        [⟨"1", "A", .F, none, none, "2025-01-01T00:00:00.000Z", 1⟩,
         ⟨"2", "B", .M, none, none, "2025-01-02T00:00:00.000Z", 1⟩]).Perm
        [⟨"1", "A", .F, none, none, "2025-01-01T00:00:00.000Z", 1⟩,
         ⟨"2", "B", .M, none, none, "2025-01-02T00:00:00.000Z", 1⟩] :=
  listAnimals_sorted_desc
    [⟨"1", "A", .F, none, none, "2025-01-01T00:00:00.000Z", 1⟩,
     ⟨"2", "B", .M, none, none, "2025-01-02T00:00:00.000Z", 1⟩]
    [⟨"1", "A", .F, none, none, "2025-01-01T00:00:00.000Z", 1⟩,
     ⟨"2", "B", .M, none, none, "2025-01-02T00:00:00.000Z", 1⟩]
    (by decide) (by decide)

/-- C5 counterexample: two records with equal updatedAt and tags out of
ascending order. The embedded ORDER BY updatedAt DESC query returns them
in table order (tags B then A); the ordering the spec prescribes (ties
broken by ascending tag) returns A then B, so the claimed tie-break does
not hold of the code's query. -/
theorem listAnimals_no_tag_tiebreak_counterexample :
    ((listAnimalsNative
        [⟨"1", "B", .F, none, none, "2025-01-01T00:00:00.000Z", 1⟩,
         ⟨"2", "A", .M, none, none, "2025-01-01T00:00:00.000Z", 1⟩]).map
      (fun a => a.tag) = ["B", "A"])
    ∧ ((listAnimalsSpecOrder
        [⟨"1", "B", .F, none, none, "2025-01-01T00:00:00.000Z", 1⟩,
         ⟨"2", "A", .M, none, none, "2025-01-01T00:00:00.000Z", 1⟩]).map
      (fun a => a.tag) = ["A", "B"])
    ∧ listAnimalsNative
        [⟨"1", "B", .F, none, none, "2025-01-01T00:00:00.000Z", 1⟩,
         ⟨"2", "A", .M, none, none, "2025-01-01T00:00:00.000Z", 1⟩]
      ≠ listAnimalsSpecOrder
        [⟨"1", "B", .F, none, none, "2025-01-01T00:00:00.000Z", 1⟩,
         ⟨"2", "A", .M, none, none, "2025-01-01T00:00:00.000Z", 1⟩] := by
  have hBA : ¬ ((['B'] : List Char) ≤ ['A']) := by decide
  refine ⟨?_, ?_, ?_⟩ <;>
    simp [listAnimalsNative, listAnimalsSpecOrder, List.mergeSort,
      List.splitInTwo, jsSortKeep, specOrderKeep, List.merge, hBA]

/-- Witness for C3 at a concrete record and an unused id. -/
theorem upsert_get_roundtrip_witness :
    getAnimalById (upsertAnimalWeb "2025-01-01T00:00:00.000Z" "id-1"
        { tag := "A-001", sex := .F } []).2
        (upsertAnimalWeb "2025-01-01T00:00:00.000Z" "id-1"
          { tag := "A-001", sex := .F } []).1.id
      = some (upsertAnimalWeb "2025-01-01T00:00:00.000Z" "id-1"
          { tag := "A-001", sex := .F } []).1
    ∧ getAnimalById (insertOrReplace
        (upsertEntity "2025-01-01T00:00:00.000Z" "id-1"
          { tag := "A-001", sex := .F }) [])
        (upsertEntity "2025-01-01T00:00:00.000Z" "id-1"
          { tag := "A-001", sex := .F }).id
      = some (upsertEntity "2025-01-01T00:00:00.000Z" "id-1"
          { tag := "A-001", sex := .F })
    ∧ getAnimalById [] "no-such-id" = none :=
  upsert_get_roundtrip "2025-01-01T00:00:00.000Z" "id-1"
    { tag := "A-001", sex := .F } [] [] [] "no-such-id" (by simp)

/-- C9: initDb is idempotent and additive. On a fresh store it creates
the animals table keyed by id (first column, primary key) with all
current attributes and no rows; on an existing store it leaves the
existing columns verbatim in place (never removes or renames) and appends
exactly the model columns absent from the store, every existing row
getting a null value for each added column; calling it again on its own
output changes nothing — no errors, no duplicate or changed columns. -/
theorem initDb_idempotent_additive :
    initDb none = ⟨fullSchemaCols, []⟩
    ∧ (∀ t : DbTable,
        initDb (some t) =
          ⟨t.cols ++ (missingCols t).map (fun c => ⟨c.1, c.2, false, false⟩),
           t.rows.map (fun r =>
              r ++ (missingCols t).map (fun c => (c.1, SqlValue.null)))⟩)
    ∧ (∀ s : Option DbTable, initDb (some (initDb s)) = initDb s) := by
  have hnd : (addIfMissing.map Prod.fst).Nodup := by decide
  have hfull : ∀ c ∈ addIfMissing, hasCol fullSchemaCols c.1 = true := by decide
  have hcols : ∀ (s : Option DbTable) (c : String × String),
      c ∈ addIfMissing → hasCol (initDb s).cols c.1 = true := by
    intro s c hc
    cases s with
    | none =>
      rw [initDb_none_eq]
      exact hasCol_foldl_of_mem addIfMissing _ c hc
    | some t =>
      rw [initDb_some_eq]
      exact hasCol_foldl_of_mem addIfMissing _ c hc
  refine ⟨?_, ?_, ?_⟩
  · rw [initDb_none_eq]
    exact foldl_migrate_eq_self addIfMissing ⟨fullSchemaCols, []⟩ hfull
  · intro t
    rw [initDb_some_eq]
    exact foldl_migrate_char addIfMissing t hnd
  · intro s
    rw [initDb_some_eq]
    exact foldl_migrate_eq_self addIfMissing (initDb s) (hcols s)

end AgroTech
